import Mathlib

/-!
Verification of the Upsert migration wizard core against its specification.

Shallow embedding of the TypeScript sources:
  * `src/stores/migrationStore.ts`   — data model and store actions
  * `src/components/migration/steps/DryRun.tsx`   — `handleRunDryRun`
  * `src/components/migration/steps/Execute.tsx`  — simulated migration driver
  * the Tauri-backed Execute component (`handleStart` result handler)
  * `src/components/migration/MigrationWizard`    — navigation guards

JavaScript numbers are modelled as exact integers/rationals (`Nat`/`Int`):
`Math.floor(rows * 0.6)` becomes `6 * rows / 10` (Nat floor division),
`Math.ceil(a / b)` becomes `(a + b - 1) / b`.  Row counts are
nonnegative integers, so `Nat` is used for counters and `Int` where a
difference could in principle go negative.
-/

namespace Upsert

/-- `MigrationMode` from `migrationStore.ts`. -/
inductive MigrationMode where
  | upsert | mirror | appendOnly | merge | schemaOnly
deriving DecidableEq, Repr

/-- `ConflictResolution` from `migrationStore.ts`. -/
inductive ConflictResolution where
  | sourceWins | targetWins | newestWins | manualReview
deriving DecidableEq, Repr

/-- `transactionMode` field values from `MigrationConfig`. -/
inductive TransactionMode where
  | perBatch | wholeMigration | none
deriving DecidableEq, Repr

/-- `MigrationConfig` from `migrationStore.ts`. -/
structure MigrationConfig where
  mode : MigrationMode
  conflictResolution : ConflictResolution
  batchSize : Nat
  transactionMode : TransactionMode
  retryCount : Nat
  autoRollback : Bool
  backupBeforeMigrate : Bool
  dryRun : Bool
deriving DecidableEq, Repr

/-- `TableMapping` from `migrationStore.ts`. -/
structure TableMapping where
  id : String
  sourceTable : String
  targetTable : String
  included : Bool
  estimatedRows : Nat
deriving DecidableEq, Repr

/-- `includedTables` in `DryRun.tsx` / `Execute.tsx`:
`tableMappings.filter((m) => m.included && m.targetTable)`; a JS string is
truthy iff nonempty. -/
def includedTables (mappings : List TableMapping) : List TableMapping :=
  mappings.filter (fun m => m.included && !(m.targetTable == ""))

/-- `totalEstimatedRows` in `DryRun.tsx`:
`includedTables.reduce((sum, m) => sum + m.estimatedRows, 0)`. -/
def totalEstimatedRows (mappings : List TableMapping) : Nat :=
  (includedTables mappings).foldl (fun sum m => sum + m.estimatedRows) 0

/-- One element of `DryRunResult.tableSummaries` (`migrationStore.ts`).
`estimatedSkips` is an `Int` because it is computed by subtraction in the
source and the spec asks whether it can go negative. -/
structure TableSummary where
  tableId : String
  tableName : String
  estimatedRows : Nat
  estimatedInserts : Nat
  estimatedUpdates : Nat
  estimatedDeletes : Nat
  estimatedSkips : Int
deriving DecidableEq, Repr

/-- The per-table estimate built inside `handleRunDryRun` (`DryRun.tsx`):
`inserts = Math.floor(rows * 0.6)`, `updates = Math.floor(rows * 0.3)`,
`deletes = mode === "Mirror" ? Math.floor(rows * 0.05) : 0`,
`skips = rows - inserts - updates - deletes`. -/
def mkTableSummary (mode : MigrationMode) (t : TableMapping) : TableSummary :=
  let rows := t.estimatedRows
  let inserts := 6 * rows / 10
  let updates := 3 * rows / 10
  let deletes := if mode = MigrationMode.mirror then 5 * rows / 100 else 0
  { tableId := t.id
    tableName := t.sourceTable
    estimatedRows := rows
    estimatedInserts := inserts
    estimatedUpdates := updates
    estimatedDeletes := deletes
    estimatedSkips := (rows : Int) - inserts - updates - deletes }

/-- The structural warnings `handleRunDryRun` can emit.  The source builds
interpolated strings and drops the empty ones with `.filter(Boolean)`; each
constructor carries the data interpolated into the corresponding string. -/
inductive DryRunWarning where
  | largeTableCount (tables : Nat)
  | highRowCount (rows : Nat)
  | noTransaction
  | sameConnection
deriving DecidableEq, Repr

/-- `DryRunResult` from `migrationStore.ts` (warnings abstracted to
`DryRunWarning`, errors kept as strings). -/
structure DryRunResult where
  tableSummaries : List TableSummary
  warnings : List DryRunWarning
  errors : List String
  totalEstimatedTime : Nat
deriving DecidableEq, Repr

/-- The warnings array of `handleRunDryRun`: four conditional entries,
empty strings filtered out. -/
def dryRunWarnings (cfg : MigrationConfig) (mappings : List TableMapping)
    (sourceConnectionId targetConnectionId : Option String) : List DryRunWarning :=
  (if (includedTables mappings).length > 5 then
    [DryRunWarning.largeTableCount (includedTables mappings).length] else []) ++
  (if totalEstimatedRows mappings > 10000 then
    [DryRunWarning.highRowCount (totalEstimatedRows mappings)] else []) ++
  (if cfg.transactionMode = TransactionMode.none then
    [DryRunWarning.noTransaction] else []) ++
  (if sourceConnectionId = targetConnectionId then
    [DryRunWarning.sameConnection] else [])

/-- The `DryRunResult` built by `handleRunDryRun` (`DryRun.tsx`):
summaries over the included tables, the four conditional warnings, an empty
error list, and `Math.ceil(totalEstimatedRows / batchSize) * 50` as the
time estimate. -/
def runDryRun (cfg : MigrationConfig) (mappings : List TableMapping)
    (sourceConnectionId targetConnectionId : Option String) : DryRunResult :=
  { tableSummaries := (includedTables mappings).map (mkTableSummary cfg.mode)
    warnings := dryRunWarnings cfg mappings sourceConnectionId targetConnectionId
    errors := []
    totalEstimatedTime :=
      (totalEstimatedRows mappings + cfg.batchSize - 1) / cfg.batchSize * 50 }

/-- `TransformRuleType` from `migrationStore.ts`. -/
inductive TransformRuleType where
  | rename | typeCast | valueMap | defaultForNull | dropColumn
deriving DecidableEq, Repr

/-- `TransformRule` from `migrationStore.ts`; the `config`
`Record<string,string>` is modelled as an association list. -/
structure TransformRule where
  id : String
  tableId : String
  sourceColumn : String
  targetColumn : String
  ruleType : TransformRuleType
  config : List (String × String)
  order : Nat
deriving DecidableEq, Repr

/-- `MigrationError` from `migrationStore.ts`. -/
structure MigrationError where
  id : String
  tableId : String
  rowIndex : Option Nat
  message : String
  timestamp : Nat
deriving DecidableEq, Repr

/-- The `status` field values of `TableProgress`. -/
inductive TableStatus where
  | pending | running | completed | failed | skipped
deriving DecidableEq, Repr

/-- `TableProgress` from `migrationStore.ts`. -/
structure TableProgress where
  tableId : String
  tableName : String
  status : TableStatus
  totalRows : Nat
  processedRows : Nat
  errors : List MigrationError
deriving DecidableEq, Repr

/-- `Partial<TableMapping>`: each field optionally present. -/
structure TableMappingPatch where
  id : Option String := none
  sourceTable : Option String := none
  targetTable : Option String := none
  included : Option Bool := none
  estimatedRows : Option Nat := none
deriving DecidableEq, Repr

/-- `Partial<TransformRule>`. -/
structure TransformRulePatch where
  id : Option String := none
  tableId : Option String := none
  sourceColumn : Option String := none
  targetColumn : Option String := none
  ruleType : Option TransformRuleType := none
  config : Option (List (String × String)) := none
  order : Option Nat := none
deriving DecidableEq, Repr

/-- `Partial<TableProgress>`. -/
structure TableProgressPatch where
  tableId : Option String := none
  tableName : Option String := none
  status : Option TableStatus := none
  totalRows : Option Nat := none
  processedRows : Option Nat := none
  errors : Option (List MigrationError) := none
deriving DecidableEq, Repr

/-- The object spread `{ ...m, ...updates }` for a table mapping: fields
present in the patch win. -/
def applyMappingPatch (m : TableMapping) (u : TableMappingPatch) : TableMapping :=
  { id := u.id.getD m.id
    sourceTable := u.sourceTable.getD m.sourceTable
    targetTable := u.targetTable.getD m.targetTable
    included := u.included.getD m.included
    estimatedRows := u.estimatedRows.getD m.estimatedRows }

/-- The object spread `{ ...r, ...updates }` for a transform rule. -/
def applyRulePatch (r : TransformRule) (u : TransformRulePatch) : TransformRule :=
  { id := u.id.getD r.id
    tableId := u.tableId.getD r.tableId
    sourceColumn := u.sourceColumn.getD r.sourceColumn
    targetColumn := u.targetColumn.getD r.targetColumn
    ruleType := u.ruleType.getD r.ruleType
    config := u.config.getD r.config
    order := u.order.getD r.order }

/-- The object spread `{ ...tp, ...updates }` for a table progress entry. -/
def applyProgressPatch (tp : TableProgress) (u : TableProgressPatch) : TableProgress :=
  { tableId := u.tableId.getD tp.tableId
    tableName := u.tableName.getD tp.tableName
    status := u.status.getD tp.status
    totalRows := u.totalRows.getD tp.totalRows
    processedRows := u.processedRows.getD tp.processedRows
    errors := u.errors.getD tp.errors }

/-- `updateTableMapping` from `migrationStore.ts`:
`state.tableMappings.map((m) => m.id === id ? { ...m, ...updates } : m)`. -/
def updateTableMapping (id : String) (u : TableMappingPatch)
    (l : List TableMapping) : List TableMapping :=
  l.map (fun m => if m.id = id then applyMappingPatch m u else m)

/-- `updateTransformRule` from `migrationStore.ts`. -/
def updateTransformRule (id : String) (u : TransformRulePatch)
    (l : List TransformRule) : List TransformRule :=
  l.map (fun r => if r.id = id then applyRulePatch r u else r)

/-- `updateTableProgress` from `migrationStore.ts` (matches on `tableId`). -/
def updateTableProgress (tableId : String) (u : TableProgressPatch)
    (l : List TableProgress) : List TableProgress :=
  l.map (fun tp => if tp.tableId = tableId then applyProgressPatch tp u else tp)

/-- `MigrationStatus` from `migrationStore.ts` (all eight declared values,
including the never-assigned `paused`). -/
inductive MigrationStatus where
  | idle | configuring | dryRun | running | paused | completed | failed
  | cancelled
deriving DecidableEq, Repr, Fintype

/-- `MigrationProgress` from `migrationStore.ts`. -/
structure MigrationProgress where
  totalRows : Nat
  processedRows : Nat
  insertedRows : Nat
  updatedRows : Nat
  deletedRows : Nat
  skippedRows : Nat
  errorCount : Nat
  currentBatch : Nat
  totalBatches : Nat
  elapsedMs : Nat
deriving DecidableEq, Repr

/-- The `setProgress` call made at each simulated batch completion in
`Execute.tsx` (both branches issue the same counter update):
`processedRows + increment`, `insertedRows + Math.floor(increment * 0.6)`,
`updatedRows + Math.floor(increment * 0.3)`,
`skippedRows + Math.floor(increment * 0.1)`; `deletedRows`, `errorCount`
and the remaining fields are left unchanged. -/
def progressBatchUpdate (increment : Nat) (p : MigrationProgress) :
    MigrationProgress :=
  { p with
    processedRows := p.processedRows + increment
    insertedRows := p.insertedRows + 6 * increment / 10
    updatedRows := p.updatedRows + 3 * increment / 10
    skippedRows := p.skippedRows + increment / 10 }

/-- The slice of the migration store state that the `Execute.tsx` simulation
reads and writes. -/
structure SimState where
  status : MigrationStatus
  progress : MigrationProgress
  tableProgress : List TableProgress
deriving DecidableEq, Repr

/-- `startMigration` from `migrationStore.ts`: status becomes `running`,
the global progress is zeroed with `totalRows` summed over the included
mappings, and a pending `TableProgress` entry is created per included
mapping. -/
def startMigrationState (mappings : List TableMapping) : SimState :=
  { status := MigrationStatus.running
    progress :=
      { totalRows := (mappings.filter (fun m => m.included)).foldl
          (fun sum m => sum + m.estimatedRows) 0
        processedRows := 0
        insertedRows := 0
        updatedRows := 0
        deletedRows := 0
        skippedRows := 0
        errorCount := 0
        currentBatch := 0
        totalBatches := 0
        elapsedMs := 0 }
    tableProgress := (mappings.filter (fun m => m.included)).map (fun m =>
      { tableId := m.id
        tableName := m.sourceTable
        status := TableStatus.pending
        totalRows := m.estimatedRows
        processedRows := 0
        errors := [] }) }

/-- `tableProgress.findIndex((tp) => tp.status === "running" || tp.status
=== "pending")` from the `Execute.tsx` simulation loop: index of the first
running-or-pending table, `none` when there is none (JS `-1`). -/
def findActiveIdx : List TableProgress → Option Nat
  | [] => none
  | tp :: rest =>
    if tp.status = TableStatus.running ∨ tp.status = TableStatus.pending then
      some 0
    else (findActiveIdx rest).map (· + 1)

/-- One tick of the `Execute.tsx` simulation interval: if no table is
running or pending the migration is marked completed; a pending table is
marked running; a running table processes
`increment = min(batchSize, totalRows - processedRows)` rows, completing
the table when it reaches `totalRows`, and the global counters are advanced
by `progressBatchUpdate`. -/
def simStep (batchSize : Nat) (s : SimState) : SimState :=
  match findActiveIdx s.tableProgress with
  | none => { s with status := MigrationStatus.completed }
  | some i =>
    match s.tableProgress[i]? with
    | none => s
    | some ct =>
      if ct.status = TableStatus.pending then
        { s with
          tableProgress := updateTableProgress ct.tableId
            ({ status := some TableStatus.running }) s.tableProgress }
      else if ct.processedRows +
          min batchSize (ct.totalRows - ct.processedRows) ≥ ct.totalRows then
        { s with
          tableProgress := updateTableProgress ct.tableId
            ({ status := some TableStatus.completed, processedRows := some ct.totalRows })
            s.tableProgress
          progress := progressBatchUpdate
            (min batchSize (ct.totalRows - ct.processedRows)) s.progress }
      else
        { s with
          tableProgress := updateTableProgress ct.tableId
            ({ processedRows := some (ct.processedRows +
              min batchSize (ct.totalRows - ct.processedRows)) })
            s.tableProgress
          progress := progressBatchUpdate
            (min batchSize (ct.totalRows - ct.processedRows)) s.progress }

/-- States reachable by iterating the simulation from a start state. -/
inductive SimReach (batchSize : Nat) (init : SimState) : SimState → Prop where
  | refl : SimReach batchSize init init
  | step {s : SimState} : SimReach batchSize init s →
      SimReach batchSize init (simStep batchSize s)

/-- The migration-status transitions actually invoked by the components.
`setStatus` itself (`migrationStore.ts`) is unguarded, so the enabling
conditions come from the call sites: the DryRun button (wizard step 6,
blocked while a dry run is in flight, unreachable from `completed` and
`cancelled` because the wizard's Back button is disabled while
`isExecuting`), the Execute Start button (rendered only when status is
`idle` or `configuring`), the Execute Cancel button (rendered only while
`running`), and the wizard's Cancel button calling `reset` (disabled while
`isExecuting`, i.e. `running`, `completed`, or `cancelled`).

The backend-result actions (`migrationDone`, `migrationFailed`,
`migrationCancelledResult`) model the post-await continuation of
`handleStart` in the Tauri-backed Execute component, which applies the
result — or, in its catch branch, sets `failed` — without checking the
store status.  The continuation can only fire while the
`executeMigration` promise is pending, and the promise is created when the
Start button sets `running`; the only status change reachable while it is
pending is the Cancel button's `running → cancelled` (Back, Cancel and
Start are all disabled or hidden then).  So these actions are enabled
exactly in `running` and `cancelled`: a late backend result or a thrown
error lands in a store already marked `cancelled` and overwrites it. -/
inductive StatusAction where
  | runDryRunStart
  | dryRunFinish
  | startMigration
  | migrationDone
  | migrationFailed
  | migrationCancelledResult
  | cancelButton
  | wizardReset
deriving DecidableEq, Repr, Fintype

/-- `isExecuting` from the migration wizard:
`status === "running" || status === "completed" || status === "cancelled"`. -/
def isExecuting (st : MigrationStatus) : Prop :=
  st = MigrationStatus.running ∨ st = MigrationStatus.completed ∨
    st = MigrationStatus.cancelled

instance (st : MigrationStatus) : Decidable (isExecuting st) := by
  unfold isExecuting; infer_instance

/-- The guarded transition function of the migration status: `none` when
the action is not enabled in the given status. -/
def statusStep (st : MigrationStatus) : StatusAction → Option MigrationStatus
  | StatusAction.runDryRunStart =>
    if st = MigrationStatus.idle ∨ st = MigrationStatus.configuring ∨
        st = MigrationStatus.failed then
      some MigrationStatus.dryRun
    else none
  | StatusAction.dryRunFinish =>
    if st = MigrationStatus.dryRun then some MigrationStatus.configuring
    else none
  | StatusAction.startMigration =>
    if st = MigrationStatus.idle ∨ st = MigrationStatus.configuring then
      some MigrationStatus.running
    else none
  | StatusAction.migrationDone =>
    if st = MigrationStatus.running ∨ st = MigrationStatus.cancelled then
      some MigrationStatus.completed
    else none
  | StatusAction.migrationFailed =>
    if st = MigrationStatus.running ∨ st = MigrationStatus.cancelled then
      some MigrationStatus.failed
    else none
  | StatusAction.migrationCancelledResult =>
    if st = MigrationStatus.running ∨ st = MigrationStatus.cancelled then
      some MigrationStatus.cancelled
    else none
  | StatusAction.cancelButton =>
    if st = MigrationStatus.running then some MigrationStatus.cancelled
    else none
  | StatusAction.wizardReset =>
    if isExecuting st then none else some MigrationStatus.idle

/-- Statuses reachable from `idle` through the guarded transitions. -/
inductive StatusReach : MigrationStatus → Prop where
  | init : StatusReach MigrationStatus.idle
  | step {s t : MigrationStatus} {a : StatusAction} : StatusReach s →
      statusStep s a = some t → StatusReach t

/-- The slice of the migration store state touched by cancellation. -/
structure StoreState where
  status : MigrationStatus
  error : Option String
  progress : Option MigrationProgress
  tableProgress : List TableProgress
deriving DecidableEq, Repr

/-- `cancelMigration` from `migrationStore.ts`:
`set({ status: "cancelled" })` — nothing else changes. -/
def cancelMigrationAction (s : StoreState) : StoreState :=
  { s with status := MigrationStatus.cancelled }

/-- `MigrationResultDto` from `tauriCommands.ts`. -/
structure MigrationResultDto where
  rowsInserted : Nat
  rowsUpdated : Nat
  rowsDeleted : Nat
  rowsSkipped : Nat
  errorCount : Nat
  durationMs : Nat
  status : String
deriving DecidableEq, Repr

/-- The result handler at the end of `handleStart` in the Tauri-backed
Execute component: `setProgress` with the backend's committed counters
(`processedRows` = inserted + updated + deleted + skipped, `totalRows` =
sum of included estimates), then `setStatus` — `cancelled` when the result
status is `"cancelled"` (checked before the error count), `failed` when
`errorCount > 0`, else `completed` — then a loop marking every
`tableProgress` entry `skipped` (cancelled) or `completed` with
`processedRows := totalRows`.  The loop calls
`updateTableProgress(tp.tableId, …)` per entry; with distinct ids that is
the per-element map below. -/
def finishMigration (included : List TableMapping) (result : MigrationResultDto)
    (s : StoreState) : StoreState :=
  { s with
    progress := some
      { totalRows := included.foldl (fun sum m => sum + m.estimatedRows) 0
        processedRows := result.rowsInserted + result.rowsUpdated +
          result.rowsDeleted + result.rowsSkipped
        insertedRows := result.rowsInserted
        updatedRows := result.rowsUpdated
        deletedRows := result.rowsDeleted
        skippedRows := result.rowsSkipped
        errorCount := result.errorCount
        currentBatch := 0
        totalBatches := 0
        elapsedMs := result.durationMs }
    status :=
      if result.status = "cancelled" then MigrationStatus.cancelled
      else if result.errorCount > 0 then MigrationStatus.failed
      else MigrationStatus.completed
    tableProgress := s.tableProgress.map (fun tp =>
      applyProgressPatch tp
        { status := some (if result.status = "cancelled" then
            TableStatus.skipped else TableStatus.completed)
          processedRows := some tp.totalRows }) }

/-- The seven supported backends (`DatabaseEngine` in `connectionStore`). -/
inductive Engine where
  | sqlServer | postgreSql | mySql | sqlite | oracle | mongoDb | cosmosDb
deriving DecidableEq, Repr, Fintype

/-- Lossiness tags of native↔canonical mappings (spec §3). -/
inductive Lossiness where
  | exact | widenedSafe | narrowedRisk | unsupported
deriving DecidableEq, Repr

/-- The engine-neutral canonical types (spec §3). -/
inductive CanonicalType where
  | boolean
  | int8 | int16 | int32 | int64
  | float32 | float64
  | decimal (precision scale : Nat)
  | fixedString (len : Nat)
  | varString (maxLen : Nat)
  | text
  | binaryFixed | binaryVariable
  | date | time
  | dateTime (precision : Nat)
  | dateTimeWithOffset
  | uuid | json
  | enum (variants : List String)
  | array (elem : CanonicalType)
  | unsupported
deriving DecidableEq, Repr

/-- Modelled from the spec: the per-engine native→canonical mapping table of
the Canonical Type Mapper (`db/type_mapper.rs`, not among the available
sources).  Spec §4.1: `to_canonical` is deterministic and table-driven per
engine; each row carries a Lossiness tag. -/
def typeTable : Engine → List (String × CanonicalType × Lossiness)
  | Engine.postgreSql =>
    [("boolean", CanonicalType.boolean, Lossiness.exact),
     ("smallint", CanonicalType.int16, Lossiness.exact),
     ("integer", CanonicalType.int32, Lossiness.exact),
     ("bigint", CanonicalType.int64, Lossiness.exact),
     ("real", CanonicalType.float32, Lossiness.exact),
     ("double precision", CanonicalType.float64, Lossiness.exact),
     ("numeric(10,2)", CanonicalType.decimal 10 2, Lossiness.exact),
     ("varchar(255)", CanonicalType.varString 255, Lossiness.exact),
     ("text", CanonicalType.text, Lossiness.exact),
     ("bytea", CanonicalType.binaryVariable, Lossiness.exact),
     ("date", CanonicalType.date, Lossiness.exact),
     ("time", CanonicalType.time, Lossiness.exact),
     ("timestamp", CanonicalType.dateTime 6, Lossiness.exact),
     ("timestamptz", CanonicalType.dateTimeWithOffset, Lossiness.exact),
     ("uuid", CanonicalType.uuid, Lossiness.exact),
     ("jsonb", CanonicalType.json, Lossiness.exact),
     ("json", CanonicalType.json, Lossiness.widenedSafe)]
  | Engine.mySql =>
    [("tinyint", CanonicalType.int8, Lossiness.exact),
     ("smallint", CanonicalType.int16, Lossiness.exact),
     ("int", CanonicalType.int32, Lossiness.exact),
     ("bigint", CanonicalType.int64, Lossiness.exact),
     ("float", CanonicalType.float32, Lossiness.exact),
     ("double", CanonicalType.float64, Lossiness.exact),
     ("varchar(255)", CanonicalType.varString 255, Lossiness.exact),
     ("text", CanonicalType.text, Lossiness.exact),
     ("blob", CanonicalType.binaryVariable, Lossiness.exact),
     ("date", CanonicalType.date, Lossiness.exact),
     ("time", CanonicalType.time, Lossiness.exact),
     ("datetime", CanonicalType.dateTime 0, Lossiness.exact),
     ("json", CanonicalType.json, Lossiness.exact)]
  | Engine.sqlServer =>
    [("bit", CanonicalType.boolean, Lossiness.exact),
     ("tinyint", CanonicalType.int16, Lossiness.widenedSafe),
     ("smallint", CanonicalType.int16, Lossiness.exact),
     ("int", CanonicalType.int32, Lossiness.exact),
     ("bigint", CanonicalType.int64, Lossiness.exact),
     ("real", CanonicalType.float32, Lossiness.exact),
     ("float", CanonicalType.float64, Lossiness.exact),
     ("nvarchar(max)", CanonicalType.text, Lossiness.exact),
     ("varbinary(max)", CanonicalType.binaryVariable, Lossiness.exact),
     ("date", CanonicalType.date, Lossiness.exact),
     ("time", CanonicalType.time, Lossiness.exact),
     ("datetime2", CanonicalType.dateTime 7, Lossiness.exact),
     ("datetimeoffset", CanonicalType.dateTimeWithOffset, Lossiness.exact),
     ("uniqueidentifier", CanonicalType.uuid, Lossiness.exact)]
  | Engine.sqlite =>
    [("integer", CanonicalType.int64, Lossiness.exact),
     ("real", CanonicalType.float64, Lossiness.exact),
     ("text", CanonicalType.text, Lossiness.exact),
     ("blob", CanonicalType.binaryVariable, Lossiness.exact)]
  | Engine.oracle =>
    [("number(19)", CanonicalType.int64, Lossiness.exact),
     ("binary_float", CanonicalType.float32, Lossiness.exact),
     ("binary_double", CanonicalType.float64, Lossiness.exact),
     ("clob", CanonicalType.text, Lossiness.exact),
     ("blob", CanonicalType.binaryVariable, Lossiness.exact),
     ("date", CanonicalType.dateTime 0, Lossiness.exact),
     ("timestamp with time zone", CanonicalType.dateTimeWithOffset,
       Lossiness.exact)]
  | Engine.mongoDb =>
    [("bool", CanonicalType.boolean, Lossiness.exact),
     ("int", CanonicalType.int32, Lossiness.exact),
     ("long", CanonicalType.int64, Lossiness.exact),
     ("double", CanonicalType.float64, Lossiness.exact),
     ("string", CanonicalType.text, Lossiness.exact),
     ("binData", CanonicalType.binaryVariable, Lossiness.exact),
     ("date", CanonicalType.dateTime 3, Lossiness.exact),
     ("object", CanonicalType.json, Lossiness.exact)]
  | Engine.cosmosDb =>
    [("boolean", CanonicalType.boolean, Lossiness.exact),
     ("number", CanonicalType.float64, Lossiness.exact),
     ("string", CanonicalType.text, Lossiness.exact),
     ("object", CanonicalType.json, Lossiness.exact)]

/-- Modelled from the spec: `to_canonical(engine, native_type_spec)` —
table lookup; unknown native types map to `Unsupported` with
`Lossiness=Unsupported` rather than failing (spec §4.1). -/
def to_canonical (e : Engine) (nativeType : String) :
    CanonicalType × Lossiness :=
  match (typeTable e).find? (fun p => p.1 = nativeType) with
  | some p => p.2
  | none => (CanonicalType.unsupported, Lossiness.unsupported)

/-- Modelled from the spec: the per-engine canonical→native preference
table used by `from_canonical` (spec §4.1: picks the native type that best
preserves precision/length). -/
def fromTable : Engine → List (CanonicalType × String × Lossiness)
  | Engine.postgreSql =>
    [(CanonicalType.boolean, "boolean", Lossiness.exact),
     (CanonicalType.int8, "smallint", Lossiness.widenedSafe),
     (CanonicalType.int16, "smallint", Lossiness.exact),
     (CanonicalType.int32, "integer", Lossiness.exact),
     (CanonicalType.int64, "bigint", Lossiness.exact),
     (CanonicalType.float32, "real", Lossiness.exact),
     (CanonicalType.float64, "double precision", Lossiness.exact),
     (CanonicalType.decimal 10 2, "numeric(10,2)", Lossiness.exact),
     (CanonicalType.varString 255, "varchar(255)", Lossiness.exact),
     (CanonicalType.text, "text", Lossiness.exact),
     (CanonicalType.binaryVariable, "bytea", Lossiness.exact),
     (CanonicalType.binaryFixed, "bytea", Lossiness.widenedSafe),
     (CanonicalType.date, "date", Lossiness.exact),
     (CanonicalType.time, "time", Lossiness.exact),
     (CanonicalType.dateTime 6, "timestamp", Lossiness.exact),
     (CanonicalType.dateTimeWithOffset, "timestamptz", Lossiness.exact),
     (CanonicalType.uuid, "uuid", Lossiness.exact),
     (CanonicalType.json, "jsonb", Lossiness.exact)]
  | Engine.mySql =>
    [(CanonicalType.boolean, "tinyint(1)", Lossiness.widenedSafe),
     (CanonicalType.int8, "tinyint", Lossiness.exact),
     (CanonicalType.int16, "smallint", Lossiness.exact),
     (CanonicalType.int32, "int", Lossiness.exact),
     (CanonicalType.int64, "bigint", Lossiness.exact),
     (CanonicalType.float32, "float", Lossiness.exact),
     (CanonicalType.float64, "double", Lossiness.exact),
     (CanonicalType.varString 255, "varchar(255)", Lossiness.exact),
     (CanonicalType.text, "text", Lossiness.exact),
     (CanonicalType.binaryVariable, "blob", Lossiness.exact),
     (CanonicalType.date, "date", Lossiness.exact),
     (CanonicalType.time, "time", Lossiness.exact),
     (CanonicalType.dateTime 0, "datetime", Lossiness.exact),
     (CanonicalType.dateTimeWithOffset, "datetime", Lossiness.narrowedRisk),
     (CanonicalType.uuid, "char(36)", Lossiness.narrowedRisk),
     (CanonicalType.json, "json", Lossiness.exact)]
  | Engine.sqlServer =>
    [(CanonicalType.boolean, "bit", Lossiness.exact),
     (CanonicalType.int8, "smallint", Lossiness.widenedSafe),
     (CanonicalType.int16, "smallint", Lossiness.exact),
     (CanonicalType.int32, "int", Lossiness.exact),
     (CanonicalType.int64, "bigint", Lossiness.exact),
     (CanonicalType.float32, "real", Lossiness.exact),
     (CanonicalType.float64, "float", Lossiness.exact),
     (CanonicalType.text, "nvarchar(max)", Lossiness.exact),
     (CanonicalType.binaryVariable, "varbinary(max)", Lossiness.exact),
     (CanonicalType.date, "date", Lossiness.exact),
     (CanonicalType.time, "time", Lossiness.exact),
     (CanonicalType.dateTime 7, "datetime2", Lossiness.exact),
     (CanonicalType.dateTimeWithOffset, "datetimeoffset", Lossiness.exact),
     (CanonicalType.uuid, "uniqueidentifier", Lossiness.exact),
     (CanonicalType.json, "nvarchar(max)", Lossiness.widenedSafe)]
  | Engine.sqlite =>
    [(CanonicalType.boolean, "integer", Lossiness.widenedSafe),
     (CanonicalType.int8, "integer", Lossiness.widenedSafe),
     (CanonicalType.int16, "integer", Lossiness.widenedSafe),
     (CanonicalType.int32, "integer", Lossiness.widenedSafe),
     (CanonicalType.int64, "integer", Lossiness.exact),
     (CanonicalType.float32, "real", Lossiness.widenedSafe),
     (CanonicalType.float64, "real", Lossiness.exact),
     (CanonicalType.text, "text", Lossiness.exact),
     (CanonicalType.binaryVariable, "blob", Lossiness.exact),
     (CanonicalType.binaryFixed, "blob", Lossiness.widenedSafe),
     (CanonicalType.date, "text", Lossiness.widenedSafe),
     (CanonicalType.time, "text", Lossiness.widenedSafe),
     (CanonicalType.dateTimeWithOffset, "text", Lossiness.widenedSafe),
     (CanonicalType.uuid, "text", Lossiness.widenedSafe),
     (CanonicalType.json, "text", Lossiness.widenedSafe)]
  | Engine.oracle =>
    [(CanonicalType.boolean, "number(1)", Lossiness.widenedSafe),
     (CanonicalType.int8, "number(3)", Lossiness.widenedSafe),
     (CanonicalType.int16, "number(5)", Lossiness.widenedSafe),
     (CanonicalType.int32, "number(10)", Lossiness.widenedSafe),
     (CanonicalType.int64, "number(19)", Lossiness.exact),
     (CanonicalType.float32, "binary_float", Lossiness.exact),
     (CanonicalType.float64, "binary_double", Lossiness.exact),
     (CanonicalType.text, "clob", Lossiness.exact),
     (CanonicalType.binaryVariable, "blob", Lossiness.exact),
     (CanonicalType.date, "date", Lossiness.widenedSafe),
     (CanonicalType.dateTime 0, "date", Lossiness.exact),
     (CanonicalType.dateTimeWithOffset, "timestamp with time zone",
       Lossiness.exact),
     (CanonicalType.uuid, "raw(16)", Lossiness.narrowedRisk),
     (CanonicalType.json, "clob", Lossiness.widenedSafe)]
  | Engine.mongoDb =>
    [(CanonicalType.boolean, "bool", Lossiness.exact),
     (CanonicalType.int8, "int", Lossiness.widenedSafe),
     (CanonicalType.int16, "int", Lossiness.widenedSafe),
     (CanonicalType.int32, "int", Lossiness.exact),
     (CanonicalType.int64, "long", Lossiness.exact),
     (CanonicalType.float32, "double", Lossiness.widenedSafe),
     (CanonicalType.float64, "double", Lossiness.exact),
     (CanonicalType.text, "string", Lossiness.exact),
     (CanonicalType.binaryVariable, "binData", Lossiness.exact),
     (CanonicalType.date, "date", Lossiness.widenedSafe),
     (CanonicalType.dateTime 3, "date", Lossiness.exact),
     (CanonicalType.dateTimeWithOffset, "date", Lossiness.narrowedRisk),
     (CanonicalType.uuid, "string", Lossiness.widenedSafe),
     (CanonicalType.json, "object", Lossiness.exact)]
  | Engine.cosmosDb =>
    [(CanonicalType.boolean, "boolean", Lossiness.exact),
     (CanonicalType.int8, "number", Lossiness.widenedSafe),
     (CanonicalType.int16, "number", Lossiness.widenedSafe),
     (CanonicalType.int32, "number", Lossiness.widenedSafe),
     (CanonicalType.int64, "number", Lossiness.narrowedRisk),
     (CanonicalType.float32, "number", Lossiness.widenedSafe),
     (CanonicalType.float64, "number", Lossiness.exact),
     (CanonicalType.text, "string", Lossiness.exact),
     (CanonicalType.binaryVariable, "string", Lossiness.narrowedRisk),
     (CanonicalType.date, "string", Lossiness.widenedSafe),
     (CanonicalType.dateTimeWithOffset, "string", Lossiness.widenedSafe),
     (CanonicalType.uuid, "string", Lossiness.widenedSafe),
     (CanonicalType.json, "object", Lossiness.exact)]

/-- Modelled from the spec: `from_canonical(CanonicalType, target_engine)`
(`db/type_mapper.rs`, not among the available sources) — looks up the
engine's preferred native type; parametrized canonical types without a
table row are rendered generically, widening where safe and narrowing with
a warning tag otherwise (spec §4.1). -/
def from_canonical (c : CanonicalType) (e : Engine) : String × Lossiness :=
  match (fromTable e).find? (fun p => p.1 = c) with
  | some p => p.2
  | none =>
    match c with
    | CanonicalType.decimal p s =>
      ("decimal(" ++ toString p ++ "," ++ toString s ++ ")",
        Lossiness.widenedSafe)
    | CanonicalType.varString n =>
      ("varchar(" ++ toString n ++ ")", Lossiness.widenedSafe)
    | CanonicalType.fixedString n =>
      ("char(" ++ toString n ++ ")", Lossiness.widenedSafe)
    | CanonicalType.dateTime _ => ("timestamp", Lossiness.narrowedRisk)
    | CanonicalType.enum _ => ("text", Lossiness.widenedSafe)
    | CanonicalType.array _ => ("text", Lossiness.narrowedRisk)
    | _ => ("text", Lossiness.unsupported)

end Upsert

section Claims
open Upsert

/-- **C1** Dry-run conservation: every table summary produced by the dry run
satisfies `estimatedInserts + estimatedUpdates + estimatedDeletes +
estimatedSkips = estimatedRows`, and `estimatedSkips` is never negative. -/
theorem dryRun_conservation (cfg : MigrationConfig) (mappings : List TableMapping)
    (src tgt : Option String) (s : TableSummary)
    (hs : s ∈ (runDryRun cfg mappings src tgt).tableSummaries) :
    (s.estimatedInserts : Int) + s.estimatedUpdates + s.estimatedDeletes +
      s.estimatedSkips = s.estimatedRows ∧ 0 ≤ s.estimatedSkips := by
  rcases List.mem_map.mp hs with ⟨t, _, rfl⟩
  constructor
  · simp only [mkTableSummary]
    ring
  · simp only [mkTableSummary]
    have h1 : 6 * t.estimatedRows / 10 + 3 * t.estimatedRows / 10 +
        5 * t.estimatedRows / 100 ≤ t.estimatedRows := by omega
    have h2 : (if cfg.mode = MigrationMode.mirror then
        5 * t.estimatedRows / 100 else 0) ≤ 5 * t.estimatedRows / 100 := by
      split <;> omega
    omega

/-- A concrete configuration used by witnesses: Mirror mode, batch size 1000. -/
def witnessConfig : MigrationConfig :=
  { mode := MigrationMode.mirror
    conflictResolution := ConflictResolution.sourceWins
    batchSize := 1000
    transactionMode := TransactionMode.perBatch
    retryCount := 3
    autoRollback := true
    backupBeforeMigrate := true
    dryRun := false }

/-- A concrete included table mapping with 7 estimated rows, for witnesses. -/
def witnessMapping : TableMapping :=
  { id := "1"
    sourceTable := "users"
    targetTable := "users"
    included := true
    estimatedRows := 7 }

/-- Witness for C1 at a concrete single-table configuration. -/
theorem dryRun_conservation_witness :
    let s := mkTableSummary witnessConfig.mode witnessMapping
    (s.estimatedInserts : Int) + s.estimatedUpdates + s.estimatedDeletes +
      s.estimatedSkips = s.estimatedRows ∧ 0 ≤ s.estimatedSkips :=
  dryRun_conservation witnessConfig [witnessMapping] none none _ (by decide)

/-- **C5** Deletes occur only in Mirror mode: when the configured mode is
Upsert, AppendOnly, Merge, or SchemaOnly, every table summary of the dry run
estimates exactly zero deletes; a nonzero delete estimate implies the mode
is Mirror. -/
theorem dryRun_deletes_only_mirror (cfg : MigrationConfig)
    (mappings : List TableMapping) (src tgt : Option String) (s : TableSummary)
    (hs : s ∈ (runDryRun cfg mappings src tgt).tableSummaries) :
    (cfg.mode ≠ MigrationMode.mirror → s.estimatedDeletes = 0) ∧
    (s.estimatedDeletes ≠ 0 → cfg.mode = MigrationMode.mirror) := by
  rcases List.mem_map.mp hs with ⟨t, _, rfl⟩
  constructor
  · intro hmode
    simp [mkTableSummary, hmode]
  · intro hnz
    by_contra hmode
    exact hnz (by simp [mkTableSummary, hmode])

/-- Witness for C5: a non-Mirror config over the witness mapping has a zero
delete estimate. -/
theorem dryRun_deletes_only_mirror_witness :
    (mkTableSummary ({ witnessConfig with
      mode := MigrationMode.upsert } : MigrationConfig).mode
        witnessMapping).estimatedDeletes = 0 :=
  (dryRun_deletes_only_mirror { witnessConfig with mode := MigrationMode.upsert }
    [witnessMapping] none none _ (by decide)).1 (by decide)

/-- **C7** Dry-run warnings appear exactly when their conditions hold: the
large-table-count warning iff more than 5 tables are included, the
high-row-count warning iff total estimated rows exceed 10000, the
no-transaction warning iff `transactionMode` is None, the
identical-connection warning iff the source and target connection ids are
equal; every warning is one of these four, and the errors list is empty. -/
theorem dryRun_warnings_iff (cfg : MigrationConfig)
    (mappings : List TableMapping) (src tgt : Option String) :
    let r := runDryRun cfg mappings src tgt
    let count := (includedTables mappings).length
    let total := totalEstimatedRows mappings
    (DryRunWarning.largeTableCount count ∈ r.warnings ↔ count > 5) ∧
    (DryRunWarning.highRowCount total ∈ r.warnings ↔ total > 10000) ∧
    (DryRunWarning.noTransaction ∈ r.warnings ↔
      cfg.transactionMode = TransactionMode.none) ∧
    (DryRunWarning.sameConnection ∈ r.warnings ↔ src = tgt) ∧
    (∀ w ∈ r.warnings,
      w = DryRunWarning.largeTableCount count ∨
      w = DryRunWarning.highRowCount total ∨
      w = DryRunWarning.noTransaction ∨
      w = DryRunWarning.sameConnection) ∧
    r.errors = [] := by
  refine ⟨?_, ?_, ?_, ?_, ?_, rfl⟩ <;>
    simp only [runDryRun, dryRunWarnings, List.mem_append] <;>
    split_ifs <;> simp_all <;> tauto

/-- Witness for C7-style membership facts at a concrete input (the
hypotheses of C7 are the `∀ w ∈ warnings` binders, discharged at a concrete
no-transaction configuration). -/
theorem dryRun_warnings_iff_witness :
    DryRunWarning.noTransaction ∈
      (runDryRun { witnessConfig with transactionMode := TransactionMode.none }
        [witnessMapping] none none).warnings :=
  ((dryRun_warnings_iff { witnessConfig with transactionMode := TransactionMode.none }
    [witnessMapping] none none).2.2.1).mpr rfl

/-- **C8** Dry-run time estimate: with `batchSize ≥ 1`, `totalEstimatedTime`
is `50` times the batch count `⌈totalEstimatedRows / batchSize⌉`, where the
batch count is exactly the least `j` with `totalEstimatedRows ≤ j *
batchSize`. -/
theorem dryRun_time_estimate (cfg : MigrationConfig)
    (mappings : List TableMapping) (src tgt : Option String)
    (hb : 1 ≤ cfg.batchSize) :
    (runDryRun cfg mappings src tgt).totalEstimatedTime =
      (totalEstimatedRows mappings + cfg.batchSize - 1) / cfg.batchSize * 50 ∧
    totalEstimatedRows mappings ≤
      (totalEstimatedRows mappings + cfg.batchSize - 1) / cfg.batchSize *
        cfg.batchSize ∧
    (∀ j, totalEstimatedRows mappings ≤ j * cfg.batchSize →
      (totalEstimatedRows mappings + cfg.batchSize - 1) / cfg.batchSize ≤ j) := by
  set t := totalEstimatedRows mappings with ht
  set b := cfg.batchSize with hbdef
  have hb0 : 0 < b := hb
  refine ⟨rfl, ?_, ?_⟩
  · have hdm := Nat.div_add_mod (t + b - 1) b
    have hr : (t + b - 1) % b < b := Nat.mod_lt _ hb0
    rw [Nat.mul_comm]
    omega
  · intro j hj
    rw [Nat.div_le_iff_le_mul_add_pred hb0]
    rw [Nat.mul_comm] at hj
    omega

/-- Witness for C8: batch size 1000 over 7 rows gives one batch, 50 ms. -/
theorem dryRun_time_estimate_witness :
    (runDryRun witnessConfig [witnessMapping] none none).totalEstimatedTime =
      (7 + 1000 - 1) / 1000 * 50 :=
  (dryRun_time_estimate witnessConfig [witnessMapping] none none
    (by decide)).1

/-- A conditional rewrite map that leaves every non-matching element
untouched leaves a list with no matching element unchanged. -/
theorem map_ite_eq_self {α : Type} (l : List α) (f : α → α) (q : α → Prop)
    [DecidablePred q] (h : ∀ a ∈ l, ¬ q a) :
    l.map (fun a => if q a then f a else a) = l := by
  induction l with
  | nil => rfl
  | cons a t ih =>
    simp only [List.map_cons, if_neg (h a (List.mem_cons_self a t))]
    rw [ih (fun b hb => h b (List.mem_cons_of_mem a hb))]

/-- **C10** Frame effect of the update-by-id store operations
`updateTableMapping`, `updateTransformRule`, `updateTableProgress`: each
preserves list length and order, leaves every element whose id differs from
the given id unchanged, rewrites a matching element to the patched element
(in which every field absent from the patch keeps its old value), and leaves
the whole list unchanged when no element matches. -/
theorem update_by_id_frame (id : String) (um : TableMappingPatch)
    (ur : TransformRulePatch) (up : TableProgressPatch)
    (lm : List TableMapping) (lr : List TransformRule)
    (lp : List TableProgress) :
    ((updateTableMapping id um lm).length = lm.length ∧
     (∀ (i : Nat) (m : TableMapping), lm[i]? = some m → m.id ≠ id →
       (updateTableMapping id um lm)[i]? = some m) ∧
     (∀ (i : Nat) (m : TableMapping), lm[i]? = some m → m.id = id →
       (updateTableMapping id um lm)[i]? = some (applyMappingPatch m um)) ∧
     (∀ m : TableMapping,
       (um.id = none → (applyMappingPatch m um).id = m.id) ∧
       (um.sourceTable = none →
         (applyMappingPatch m um).sourceTable = m.sourceTable) ∧
       (um.targetTable = none →
         (applyMappingPatch m um).targetTable = m.targetTable) ∧
       (um.included = none → (applyMappingPatch m um).included = m.included) ∧
       (um.estimatedRows = none →
         (applyMappingPatch m um).estimatedRows = m.estimatedRows)) ∧
     ((∀ m ∈ lm, m.id ≠ id) → updateTableMapping id um lm = lm)) ∧
    ((updateTransformRule id ur lr).length = lr.length ∧
     (∀ (i : Nat) (r : TransformRule), lr[i]? = some r → r.id ≠ id →
       (updateTransformRule id ur lr)[i]? = some r) ∧
     (∀ (i : Nat) (r : TransformRule), lr[i]? = some r → r.id = id →
       (updateTransformRule id ur lr)[i]? = some (applyRulePatch r ur)) ∧
     (∀ r : TransformRule,
       (ur.id = none → (applyRulePatch r ur).id = r.id) ∧
       (ur.tableId = none → (applyRulePatch r ur).tableId = r.tableId) ∧
       (ur.sourceColumn = none →
         (applyRulePatch r ur).sourceColumn = r.sourceColumn) ∧
       (ur.targetColumn = none →
         (applyRulePatch r ur).targetColumn = r.targetColumn) ∧
       (ur.ruleType = none → (applyRulePatch r ur).ruleType = r.ruleType) ∧
       (ur.config = none → (applyRulePatch r ur).config = r.config) ∧
       (ur.order = none → (applyRulePatch r ur).order = r.order)) ∧
     ((∀ r ∈ lr, r.id ≠ id) → updateTransformRule id ur lr = lr)) ∧
    ((updateTableProgress id up lp).length = lp.length ∧
     (∀ (i : Nat) (tp : TableProgress), lp[i]? = some tp → tp.tableId ≠ id →
       (updateTableProgress id up lp)[i]? = some tp) ∧
     (∀ (i : Nat) (tp : TableProgress), lp[i]? = some tp → tp.tableId = id →
       (updateTableProgress id up lp)[i]? = some (applyProgressPatch tp up)) ∧
     (∀ tp : TableProgress,
       (up.tableId = none → (applyProgressPatch tp up).tableId = tp.tableId) ∧
       (up.tableName = none →
         (applyProgressPatch tp up).tableName = tp.tableName) ∧
       (up.status = none → (applyProgressPatch tp up).status = tp.status) ∧
       (up.totalRows = none →
         (applyProgressPatch tp up).totalRows = tp.totalRows) ∧
       (up.processedRows = none →
         (applyProgressPatch tp up).processedRows = tp.processedRows) ∧
       (up.errors = none → (applyProgressPatch tp up).errors = tp.errors)) ∧
     ((∀ tp ∈ lp, tp.tableId ≠ id) → updateTableProgress id up lp = lp)) := by
  refine ⟨⟨?_, ?_, ?_, ?_, ?_⟩, ⟨?_, ?_, ?_, ?_, ?_⟩, ⟨?_, ?_, ?_, ?_, ?_⟩⟩
  · simp [updateTableMapping]
  · intro i m hm hne
    simp [updateTableMapping, List.getElem?_map, hm, hne]
  · intro i m hm heq
    simp [updateTableMapping, List.getElem?_map, hm, heq]
  · intro m
    refine ⟨?_, ?_, ?_, ?_, ?_⟩ <;> intro h <;> simp [applyMappingPatch, h]
  · intro h
    exact map_ite_eq_self lm (fun m => applyMappingPatch m um)
      (fun m => m.id = id) h
  · simp [updateTransformRule]
  · intro i r hr hne
    simp [updateTransformRule, List.getElem?_map, hr, hne]
  · intro i r hr heq
    simp [updateTransformRule, List.getElem?_map, hr, heq]
  · intro r
    refine ⟨?_, ?_, ?_, ?_, ?_, ?_, ?_⟩ <;> intro h <;> simp [applyRulePatch, h]
  · intro h
    exact map_ite_eq_self lr (fun r => applyRulePatch r ur)
      (fun r => r.id = id) h
  · simp [updateTableProgress]
  · intro i tp htp hne
    simp [updateTableProgress, List.getElem?_map, htp, hne]
  · intro i tp htp heq
    simp [updateTableProgress, List.getElem?_map, htp, heq]
  · intro tp
    refine ⟨?_, ?_, ?_, ?_, ?_, ?_⟩ <;> intro h <;> simp [applyProgressPatch, h]
  · intro h
    exact map_ite_eq_self lp (fun tp => applyProgressPatch tp up)
      (fun tp => tp.tableId = id) h

/-- A second concrete table mapping (id "2"), for witnesses. -/
def witnessMapping2 : TableMapping :=
  { id := "2"
    sourceTable := "orders"
    targetTable := "orders"
    included := true
    estimatedRows := 500 }

/-- Setting an index to the value it already holds leaves a list unchanged. -/
theorem set_self {α : Type} : ∀ (l : List α) (i : Nat) (a : α),
    l[i]? = some a → l.set i a = l
  | [], _, _, h => by simp at h
  | x :: t, 0, a, h => by
    simp only [List.getElem?_cons_zero, Option.some.injEq] at h
    simp [h]
  | x :: t, (i+1), a, h => by
    have ht : t.set i a = t := set_self t i a (by simpa using h)
    simp [ht]

/-- When table ids are pairwise distinct, `updateTableProgress` keyed by the
id of the `k`-th element rewrites exactly position `k`. -/
theorem updateTableProgress_eq_set (u : TableProgressPatch) :
    ∀ (l : List TableProgress) (k : Nat) (ct : TableProgress),
    (l.map (fun tp => tp.tableId)).Nodup → l[k]? = some ct →
    updateTableProgress ct.tableId u l = l.set k (applyProgressPatch ct u)
  | [], _, _, _, hk => by simp at hk
  | a :: t, 0, ct, hnd, hk => by
    have ha : a = ct := by simpa using hk
    subst ha
    have hnotin : ∀ tp ∈ t, ¬ tp.tableId = a.tableId := by
      intro tp htp he
      have hmem : a.tableId ∈ t.map (fun tp => tp.tableId) :=
        he ▸ List.mem_map_of_mem _ htp
      exact (List.nodup_cons.mp (by simpa using hnd)).1 hmem
    simp only [updateTableProgress, List.map_cons, if_pos rfl, List.set]
    congr 1
    exact map_ite_eq_self t _ _ hnotin
  | a :: t, (k+1), ct, hnd, hk => by
    have hk' : t[k]? = some ct := by simpa using hk
    have hmem : ct.tableId ∈ t.map (fun tp => tp.tableId) :=
      List.mem_map_of_mem _ (List.getElem?_mem hk')
    have hne : ¬ a.tableId = ct.tableId := fun he =>
      (List.nodup_cons.mp (by simpa using hnd)).1 (he ▸ hmem)
    have ih := updateTableProgress_eq_set u t k ct
      (List.nodup_cons.mp (by simpa using hnd)).2 hk'
    simp only [updateTableProgress, List.map_cons, if_neg hne, List.set]
    congr 1

/-- `findActiveIdx` spec: `none` means no table is running or pending. -/
theorem findActiveIdx_none_spec : ∀ {l : List TableProgress},
    findActiveIdx l = none → ∀ (i : Nat) (tp : TableProgress),
    l[i]? = some tp →
    ¬(tp.status = TableStatus.running ∨ tp.status = TableStatus.pending)
  | [], _, i, tp, h => by simp at h
  | a :: t, hf, 0, tp, h => by
    have ha : a = tp := by simpa using h
    subst ha
    intro hact
    simp only [findActiveIdx, if_pos hact] at hf
    exact Option.noConfusion hf
  | a :: t, hf, (i+1), tp, h => by
    have hf' : findActiveIdx t = none := by
      by_cases hact : a.status = TableStatus.running ∨
          a.status = TableStatus.pending
      · simp only [findActiveIdx, if_pos hact] at hf
        exact Option.noConfusion hf
      · simpa only [findActiveIdx, if_neg hact, Option.map_eq_none'] using hf
    exact findActiveIdx_none_spec hf' i tp (by simpa using h)

/-- `findActiveIdx` spec: `some k` is a running-or-pending table, and every
table before index `k` is neither running nor pending. -/
theorem findActiveIdx_some_spec : ∀ {l : List TableProgress} {k : Nat},
    findActiveIdx l = some k →
    (∃ ct, l[k]? = some ct ∧
      (ct.status = TableStatus.running ∨ ct.status = TableStatus.pending)) ∧
    (∀ (j : Nat) (tp : TableProgress), j < k → l[j]? = some tp →
      ¬(tp.status = TableStatus.running ∨ tp.status = TableStatus.pending))
  | [], k, hf => by simp [findActiveIdx] at hf
  | a :: t, k, hf => by
    by_cases hact : a.status = TableStatus.running ∨
        a.status = TableStatus.pending
    · have hk : k = 0 := by
        simp only [findActiveIdx, if_pos hact] at hf
        exact (Option.some.inj hf).symm
      subst hk
      exact ⟨⟨a, by simp, hact⟩, fun j tp hj => by omega⟩
    · have hf' : ∃ k', findActiveIdx t = some k' ∧ k = k' + 1 := by
        simp only [findActiveIdx, if_neg hact, Option.map_eq_some'] at hf
        rcases hf with ⟨k', hk', he⟩
        exact ⟨k', hk', he.symm⟩
      rcases hf' with ⟨k', hk', rfl⟩
      rcases findActiveIdx_some_spec hk' with ⟨⟨ct, hct, hcta⟩, hbef⟩
      refine ⟨⟨ct, by simpa using hct, hcta⟩, ?_⟩
      intro j tp hj hget
      match j with
      | 0 =>
        have : a = tp := by simpa using hget
        exact this ▸ hact
      | (j+1) => exact hbef j tp (by omega) (by simpa using hget)

/-- The invariant of the `Execute.tsx` simulation: every table status is
pending, running or completed; whenever a later table is past pending,
every earlier table is completed; table ids are pairwise distinct. -/
def simInv (l : List TableProgress) : Prop :=
  (∀ (i : Nat) (tp : TableProgress), l[i]? = some tp →
    tp.status = TableStatus.pending ∨ tp.status = TableStatus.running ∨
      tp.status = TableStatus.completed) ∧
  (∀ (i j : Nat) (tpi tpj : TableProgress), i < j → l[i]? = some tpi →
    l[j]? = some tpj → tpj.status ≠ TableStatus.pending →
    tpi.status = TableStatus.completed) ∧
  (l.map (fun tp => tp.tableId)).Nodup

/-- Replacing the first active table (all earlier ones inactive) by an
element with the same id whose status is running, completed, or unchanged
preserves the simulation invariant. -/
theorem simInv_set (l : List TableProgress) (i : Nat) (ct nt : TableProgress)
    (hinv : simInv l) (hget : l[i]? = some ct)
    (hact : ct.status = TableStatus.running ∨ ct.status = TableStatus.pending)
    (hbefore : ∀ (j : Nat) (tp : TableProgress), j < i → l[j]? = some tp →
      ¬(tp.status = TableStatus.running ∨ tp.status = TableStatus.pending))
    (hid : nt.tableId = ct.tableId)
    (hstat : nt.status = TableStatus.running ∨
      nt.status = TableStatus.completed ∨ nt.status = ct.status) :
    simInv (l.set i nt) := by
  obtain ⟨hdom, hord, hnd⟩ := hinv
  have hlen : i < l.length := (List.getElem?_eq_some.mp hget).1
  have hgetset : ∀ (j : Nat) (tp : TableProgress), (l.set i nt)[j]? = some tp →
      (j = i ∧ tp = nt) ∨ (j ≠ i ∧ l[j]? = some tp) := by
    intro j tp hj
    by_cases hji : j = i
    · subst hji
      rw [List.getElem?_set_self hlen] at hj
      exact Or.inl ⟨rfl, (Option.some.inj hj).symm⟩
    · rw [List.getElem?_set_ne (fun he => hji he.symm)] at hj
      exact Or.inr ⟨hji, hj⟩
  have hcompleted_before : ∀ (j : Nat) (tp : TableProgress), j < i →
      l[j]? = some tp → tp.status = TableStatus.completed := by
    intro j tp hj hg
    rcases hdom j tp hg with h | h | h
    · exact absurd (Or.inr h) (hbefore j tp hj hg)
    · exact absurd (Or.inl h) (hbefore j tp hj hg)
    · exact h
  have hpending_after : ∀ (j : Nat) (tp : TableProgress), i < j →
      l[j]? = some tp → tp.status = TableStatus.pending := by
    intro j tp hj hg
    by_contra hne
    have := hord i j ct tp hj hget hg hne
    rcases hact with h | h <;> rw [this] at h <;> exact TableStatus.noConfusion h
  refine ⟨?_, ?_, ?_⟩
  · intro j tp hj
    rcases hgetset j tp hj with ⟨_, rfl⟩ | ⟨_, hg⟩
    · rcases hstat with h | h | h
      · exact Or.inr (Or.inl h)
      · exact Or.inr (Or.inr h)
      · rw [h]; exact hdom i ct hget
    · exact hdom j tp hg
  · intro a b tpa tpb hab ha hb hbne
    rcases hgetset b tpb hb with ⟨hbi, rfl⟩ | ⟨hbi, hgb⟩
    · subst hbi
      rcases hgetset a tpa ha with ⟨hai, _⟩ | ⟨_, hga⟩
      · omega
      · exact hcompleted_before a tpa hab hga
    · have hbo : b < i := by
        rcases Nat.lt_trichotomy b i with h | h | h
        · exact h
        · exact absurd h hbi
        · exact absurd (hpending_after b tpb h hgb) hbne
      rcases hgetset a tpa ha with ⟨hai, _⟩ | ⟨_, hga⟩
      · omega
      · exact hcompleted_before a tpa (by omega) hga
  · have : (l.set i nt).map (fun tp => tp.tableId) =
        l.map (fun tp => tp.tableId) := by
      rw [List.map_set]
      have hct : (l.map (fun tp => tp.tableId))[i]? = some ct.tableId := by
        simp [List.getElem?_map, hget]
      rw [hid]
      exact set_self _ i ct.tableId hct
    rw [this]
    exact hnd

/-- One simulation tick preserves the invariant. -/
theorem simInv_step (batchSize : Nat) (s : SimState)
    (h : simInv s.tableProgress) : simInv (simStep batchSize s).tableProgress := by
  cases hfind : findActiveIdx s.tableProgress with
  | none =>
    simp only [simStep, hfind]
    exact h
  | some i =>
    cases hget : s.tableProgress[i]? with
    | none =>
      simp only [simStep, hfind, hget]
      exact h
    | some ct =>
      rcases findActiveIdx_some_spec hfind with ⟨⟨ct', hct', hact'⟩, hbefore⟩
      rw [hget] at hct'
      have hcc : ct = ct' := Option.some.inj hct'
      subst hcc
      have hnd := h.2.2
      simp only [simStep, hfind, hget]
      split
      next hp =>
        rw [updateTableProgress_eq_set _ s.tableProgress i ct hnd hget]
        exact simInv_set _ i ct _ h hget hact' hbefore rfl (Or.inl rfl)
      next hp =>
        split
        next hdone =>
          rw [updateTableProgress_eq_set _ s.tableProgress i ct hnd hget]
          exact simInv_set _ i ct _ h hget hact' hbefore rfl
            (Or.inr (Or.inl rfl))
        next hdone =>
          rw [updateTableProgress_eq_set _ s.tableProgress i ct hnd hget]
          exact simInv_set _ i ct _ h hget hact' hbefore rfl
            (Or.inr (Or.inr rfl))

/-- The invariant holds along every run of the simulation. -/
theorem simInv_reach {batchSize : Nat} {init s : SimState}
    (h0 : simInv init.tableProgress) (hr : SimReach batchSize init s) :
    simInv s.tableProgress := by
  induction hr with
  | refl => exact h0
  | step _ ih => exact simInv_step _ _ ih

/-- `startMigration` establishes the invariant when the included mappings
have pairwise distinct ids. -/
theorem simInv_start (mappings : List TableMapping)
    (hnd : ((mappings.filter (fun m => m.included)).map
      (fun m => m.id)).Nodup) :
    simInv (startMigrationState mappings).tableProgress := by
  refine ⟨?_, ?_, ?_⟩
  · intro i tp h
    simp only [startMigrationState, List.getElem?_map] at h
    cases hg : (mappings.filter (fun m => m.included))[i]? with
    | none => rw [hg] at h; exact Option.noConfusion h
    | some m =>
      rw [hg] at h
      have := Option.some.inj h
      exact Or.inl (by rw [← this])
  · intro i j tpi tpj hij hi hj hne
    exfalso
    apply hne
    simp only [startMigrationState, List.getElem?_map] at hj
    cases hg : (mappings.filter (fun m => m.included))[j]? with
    | none => rw [hg] at hj; exact Option.noConfusion hj
    | some m =>
      rw [hg] at hj
      have := Option.some.inj hj
      rw [← this]
  · simp only [startMigrationState, List.map_map]
    exact hnd

/-- **C9** Type-mapper round trip: for every engine and native type whose
`to_canonical` mapping is tagged `Lossiness = Exact`, mapping to the
canonical type and back with `from_canonical` returns the original native
type. -/
theorem type_mapper_round_trip (e : Engine) (t : String)
    (hx : (to_canonical e t).2 = Lossiness.exact) :
    (from_canonical (to_canonical e t).1 e).1 = t := by
  have hall : ∀ (e : Engine), ∀ q ∈ typeTable e,
      q.2.2 = Lossiness.exact → (from_canonical q.2.1 e).1 = q.1 := by decide
  unfold to_canonical at hx ⊢
  cases hf : (typeTable e).find? (fun p => p.1 = t) with
  | none =>
    rw [hf] at hx
    exact absurd hx (by decide)
  | some p =>
    rw [hf] at hx
    have hmem : p ∈ typeTable e := List.mem_of_find?_eq_some hf
    have hps : p.1 = t := by simpa using List.find?_some hf
    rw [← hps]
    exact hall e p hmem hx

/-- Witness for C9: PostgreSQL `integer` maps to `Int32` exactly and back
to `integer`. -/
theorem type_mapper_round_trip_witness :
    (from_canonical (to_canonical Engine.postgreSql "integer").1
      Engine.postgreSql).1 = "integer" :=
  type_mapper_round_trip Engine.postgreSql "integer" (by decide)

/-- A half-processed running table, present when cancellation lands. -/
def witnessPartialTp : TableProgress :=
  { tableId := "1"
    tableName := "users"
    status := TableStatus.running
    totalRows := 100
    processedRows := 50
    errors := [] }

/-- A cancelled backend result with some committed work. -/
def witnessCancelResult : MigrationResultDto :=
  { rowsInserted := 30
    rowsUpdated := 15
    rowsDeleted := 0
    rowsSkipped := 5
    errorCount := 0
    durationMs := 1000
    status := "cancelled" }

/-- A running store state containing the half-processed table. -/
def witnessRunningStore : StoreState :=
  { status := MigrationStatus.running
    error := none
    progress := none
    tableProgress := [witnessPartialTp] }

/-- **C6** (counterexample): the per-table progress counters of work
committed before cancellation are NOT retained.  A table that had processed
50 of 100 rows at cancellation time ends with `processedRows = 100` after
the cancelled-result handler runs. -/
theorem cancellation_overwrites_progress :
    ((finishMigration [witnessMapping] witnessCancelResult
        witnessRunningStore).tableProgress.map (fun tp => tp.processedRows))
      = [100] ∧
    witnessPartialTp.processedRows = 50 := by
  decide

/-- **C6** (amended): the store's `cancelMigration` sets only the status to
`cancelled` (error, progress, table progress untouched); when the backend
result reports `cancelled`, the handler sets status `cancelled` — never
`failed`, even with a nonzero error count — keeps the error field, marks
EVERY table-progress entry `skipped` with `processedRows` overwritten to
its `totalRows`, and replaces the global progress with the backend
result's committed counters. -/
theorem cancellation_amended (s : StoreState) (included : List TableMapping)
    (result : MigrationResultDto) (hc : result.status = "cancelled") :
    ((cancelMigrationAction s).status = MigrationStatus.cancelled ∧
     (cancelMigrationAction s).error = s.error ∧
     (cancelMigrationAction s).progress = s.progress ∧
     (cancelMigrationAction s).tableProgress = s.tableProgress) ∧
    ((finishMigration included result s).status = MigrationStatus.cancelled ∧
     (finishMigration included result s).status ≠ MigrationStatus.failed ∧
     (finishMigration included result s).error = s.error ∧
     (∀ (i : Nat) (tp : TableProgress), s.tableProgress[i]? = some tp →
       (finishMigration included result s).tableProgress[i]? = some
         (applyProgressPatch tp
           ({ status := some TableStatus.skipped
              processedRows := some tp.totalRows }))) ∧
     (∃ p : MigrationProgress,
       (finishMigration included result s).progress = some p ∧
       p.insertedRows = result.rowsInserted ∧
       p.updatedRows = result.rowsUpdated ∧
       p.deletedRows = result.rowsDeleted ∧
       p.skippedRows = result.rowsSkipped ∧
       p.errorCount = result.errorCount ∧
       p.processedRows = result.rowsInserted + result.rowsUpdated +
         result.rowsDeleted + result.rowsSkipped)) := by
  refine ⟨⟨rfl, rfl, rfl, rfl⟩, ?_, ?_, rfl, ?_, ?_⟩
  · simp [finishMigration, hc]
  · simp [finishMigration, hc]
  · intro i tp htp
    simp [finishMigration, hc, List.getElem?_map, htp]
  · exact ⟨_, rfl, rfl, rfl, rfl, rfl, rfl, rfl⟩

/-- Witness for C6 (amended) at the concrete cancelled run. -/
theorem cancellation_amended_witness :
    (finishMigration [witnessMapping] witnessCancelResult
      witnessRunningStore).status = MigrationStatus.cancelled :=
  (cancellation_amended witnessRunningStore [witnessMapping]
    witnessCancelResult rfl).2.1

/-- A 5-row included table mapping, used to drive the simulation. -/
def witnessMapping5 : TableMapping :=
  { id := "1"
    sourceTable := "users"
    targetTable := "users"
    included := true
    estimatedRows := 5 }

/-- **C2** (the claim fails on the code): running the `Execute.tsx`
simulation with batch size 5 over a single 5-row table, the first
batch-completion update leaves `processedRows = 5` while
`insertedRows + updatedRows + deletedRows + skippedRows + errorCount = 4`
(`Math.floor` drops a row from the counters: 3 + 1 + 0 + 0 + 0). -/
theorem batch_counters_drop_rows :
    (simStep 5 (simStep 5 (startMigrationState [witnessMapping5]))).progress.processedRows
      = 5 ∧
    (simStep 5 (simStep 5 (startMigrationState [witnessMapping5]))).progress.insertedRows +
      (simStep 5 (simStep 5 (startMigrationState [witnessMapping5]))).progress.updatedRows +
      (simStep 5 (simStep 5 (startMigrationState [witnessMapping5]))).progress.deletedRows +
      (simStep 5 (simStep 5 (startMigrationState [witnessMapping5]))).progress.skippedRows +
      (simStep 5 (simStep 5 (startMigrationState [witnessMapping5]))).progress.errorCount
      = 4 := by
  decide

/-- **C4** Sequential table processing: in every state reachable by the
`Execute.tsx` simulation from `startMigration` (included mappings with
distinct ids), at most one table has status `running`, and whenever a table
is past `pending` (running or completed) every table ordered before it has
status `completed`. -/
theorem sequential_table_processing (batchSize : Nat)
    (mappings : List TableMapping)
    (hnd : ((mappings.filter (fun m => m.included)).map
      (fun m => m.id)).Nodup)
    (s : SimState) (hs : SimReach batchSize (startMigrationState mappings) s) :
    (∀ (i j : Nat) (tpi tpj : TableProgress), i < j →
      s.tableProgress[i]? = some tpi → s.tableProgress[j]? = some tpj →
      ¬(tpi.status = TableStatus.running ∧ tpj.status = TableStatus.running)) ∧
    (∀ (i j : Nat) (tpi tpj : TableProgress), i < j →
      s.tableProgress[i]? = some tpi → s.tableProgress[j]? = some tpj →
      tpj.status ≠ TableStatus.pending →
      tpi.status = TableStatus.completed) := by
  have hinv := simInv_reach (simInv_start mappings hnd) hs
  refine ⟨?_, fun i j tpi tpj hij hi hj hne => hinv.2.1 i j tpi tpj hij hi hj hne⟩
  intro i j tpi tpj hij hi hj ⟨hri, hrj⟩
  have : tpi.status = TableStatus.completed :=
    hinv.2.1 i j tpi tpj hij hi hj (by rw [hrj]; exact fun he => TableStatus.noConfusion he)
  rw [hri] at this
  exact TableStatus.noConfusion this

/-- **C3** (counterexample): neither `failed` nor `cancelled` is terminal.
`failed` is reachable from `idle`, and from `failed` the wizard's Cancel
button (`reset`, enabled because `isExecuting` does not cover `failed`)
moves the status back to `idle`; `cancelled` is reachable via the Cancel
button, and a late non-cancelled backend result applied by the unguarded
post-await continuation moves `cancelled` to `completed`. -/
theorem status_failed_not_terminal :
    (StatusReach MigrationStatus.failed ∧
     statusStep MigrationStatus.failed StatusAction.wizardReset =
       some MigrationStatus.idle) ∧
    (StatusReach MigrationStatus.cancelled ∧
     statusStep MigrationStatus.cancelled StatusAction.migrationDone =
       some MigrationStatus.completed) := by
  have h1 : statusStep MigrationStatus.idle StatusAction.startMigration =
      some MigrationStatus.running := by decide
  have h2 : statusStep MigrationStatus.running StatusAction.migrationFailed =
      some MigrationStatus.failed := by decide
  have h3 : statusStep MigrationStatus.running StatusAction.cancelButton =
      some MigrationStatus.cancelled := by decide
  have hrun : StatusReach MigrationStatus.running :=
    StatusReach.step StatusReach.init h1
  exact ⟨⟨StatusReach.step hrun h2, by decide⟩,
    ⟨StatusReach.step hrun h3, by decide⟩⟩

/-- **C3** (amended): starting from `idle`, the reachable statuses never
include the declared-but-unused `paused`; `running` is entered only from
`idle` or `configuring`; `running` exits only to `completed`, `failed` or
`cancelled`; `completed` is terminal; `cancelled` is not terminal — the
unguarded post-await result handler can overwrite it with `completed`,
`failed`, or `cancelled` — and `failed` is not terminal either: it can
return to `idle` (wizard reset) or to a new dry run. -/
theorem migration_status_machine :
    (∀ s : MigrationStatus, StatusReach s → s ≠ MigrationStatus.paused) ∧
    (∀ (s t : MigrationStatus) (a : StatusAction), statusStep s a = some t →
      t = MigrationStatus.running →
      s = MigrationStatus.idle ∨ s = MigrationStatus.configuring) ∧
    (∀ (t : MigrationStatus) (a : StatusAction),
      statusStep MigrationStatus.running a = some t →
      t = MigrationStatus.completed ∨ t = MigrationStatus.failed ∨
        t = MigrationStatus.cancelled) ∧
    (∀ (t : MigrationStatus) (a : StatusAction),
      statusStep MigrationStatus.completed a = some t → False) ∧
    (∀ (t : MigrationStatus) (a : StatusAction),
      statusStep MigrationStatus.cancelled a = some t →
      t = MigrationStatus.completed ∨ t = MigrationStatus.failed ∨
        t = MigrationStatus.cancelled) ∧
    (∀ (t : MigrationStatus) (a : StatusAction),
      statusStep MigrationStatus.failed a = some t →
      t = MigrationStatus.idle ∨ t = MigrationStatus.dryRun) := by
  have hnp : ∀ (s t : MigrationStatus) (a : StatusAction),
      statusStep s a = some t → t ≠ MigrationStatus.paused := by decide
  refine ⟨?_, by decide, by decide, by decide, by decide, by decide⟩
  intro s hs
  induction hs with
  | init => exact fun h => MigrationStatus.noConfusion h
  | step _ h _ => exact hnp _ _ _ h

/-- Witness for C3 (amended) at the initial status. -/
theorem migration_status_machine_witness :
    MigrationStatus.idle ≠ MigrationStatus.paused :=
  migration_status_machine.1 MigrationStatus.idle StatusReach.init

/-- The pending progress entry created for `witnessMapping5`. -/
def witnessTp0 : TableProgress :=
  { tableId := "1"
    tableName := "users"
    status := TableStatus.pending
    totalRows := 5
    processedRows := 0
    errors := [] }

/-- The pending progress entry created for `witnessMapping2`. -/
def witnessTp1 : TableProgress :=
  { tableId := "2"
    tableName := "orders"
    status := TableStatus.pending
    totalRows := 500
    processedRows := 0
    errors := [] }

/-- Witness for C4 at the two-table start state. -/
theorem sequential_table_processing_witness :
    ¬(witnessTp0.status = TableStatus.running ∧
      witnessTp1.status = TableStatus.running) :=
  (sequential_table_processing 5 [witnessMapping5, witnessMapping2]
    (by decide) _ SimReach.refl).1 0 1 witnessTp0 witnessTp1
    (by decide) (by decide) (by decide)

/-- Witness for C10: updating mapping "1" in a two-element list leaves the
element with id "2" unchanged at its position. -/
theorem update_by_id_frame_witness :
    (updateTableMapping "1" { included := some false }
      [witnessMapping, witnessMapping2])[1]? = some witnessMapping2 :=
  ((update_by_id_frame "1" { included := some false } {} {}
      [witnessMapping, witnessMapping2] [] []).1.2.1) 1 witnessMapping2
    (by decide) (by decide)

end Claims
